import Mathlib

/-!
# Verification of the provider-adapter formatting layer of the copilot-sdk runtime

This file is a shallow embedding, in Lean 4, of the provider formatting
functions of `packages/runtime/src/adapters/base.ts`, together with proofs
of the specified properties of that layer.

JavaScript strings are modelled as `List Char` (`Str`), so that the
data-URI slicing done by the adapters (`startsWith`, `indexOf(",")`,
`slice`) can be reasoned about structurally.  Optional fields
(`mimeType?`, `attachments?`, `systemPrompt?`, `description?`, …) are
modelled as `Option`; JavaScript truthiness of an optional string is
"present and non-empty", and is spelled out at each use site.
-/

namespace CopilotSDK

/-- JavaScript strings, modelled as lists of characters. -/
abbrev Str := List Char

/-- Embed a Lean string literal as a `Str`. -/
def str (s : String) : Str := s.toList

/-! ## Data model (`Message`, `MessageAttachment` from `@yourgpt/core`, §3 of the spec)

`Attachment: {type: image|file, data: base64-or-URI, mimeType}`;
`Message: {role, content, attachments?}`.  The fields not consulted by the
formatting layer (`toolCalls`, ids, timestamps) are omitted. -/

/-- `MessageAttachment`: `{type, data, mimeType?}`. -/
structure MessageAttachment where
  type : Str
  data : Str
  mimeType : Option Str
  deriving Repr, DecidableEq

/-- `Message`: `{role, content, attachments?}`. -/
structure Message where
  role : Str
  content : Str
  attachments : Option (List MessageAttachment)
  deriving Repr, DecidableEq

/-! ## Provider content-block types (`base.ts` lines 181-200) -/

/-- `AnthropicContentBlock`: a `text` block or a base64 `image` block
(the `source.type` field is the constant `"base64"` and is left implicit). -/
inductive AnthropicContentBlock where
  | text (text : Str)
  | image (media_type : Str) (data : Str)
  deriving Repr, DecidableEq

/-- `OpenAIContentBlock`: a `text` block or an `image_url` block. -/
inductive OpenAIContentBlock where
  | text (text : Str)
  | image_url (url : Str) (detail : Option Str)
  deriving Repr, DecidableEq

/-- The TypeScript union `string | AnthropicContentBlock[]`. -/
inductive AnthropicContent where
  | plain (s : Str)
  | blocks (bs : List AnthropicContentBlock)
  deriving Repr, DecidableEq

/-- The TypeScript union `string | OpenAIContentBlock[]`. -/
inductive OpenAIContent where
  | plain (s : Str)
  | blocks (bs : List OpenAIContentBlock)
  deriving Repr, DecidableEq

/-! ## Attachment conversion (`base.ts` lines 205-276) -/

/-- `hasImageAttachments` (`base.ts` 205-207):
`message.attachments?.some(a => a.type === "image") ?? false`. -/
def hasImageAttachments (m : Message) : Bool :=
  match m.attachments with
  | some l => l.any (fun a => a.type = str "image")
  | none => false

/-- Everything after the first comma of `s` (undefined-comma case handled by
the caller); mirrors `s.slice(s.indexOf(",") + 1)` when a comma exists. -/
def afterComma : Str → Str
  | [] => []
  | c :: cs => if c = ',' then cs else afterComma cs

/-- The data-URI slicing of `attachmentToAnthropicImage` (`base.ts` 227-234):
if the payload starts with `"data:"` and contains a comma, keep only what
follows the first comma; otherwise the payload is unchanged. -/
def stripDataUri (s : Str) : Str :=
  if (str "data:").isPrefixOf s then
    if ',' ∈ s then afterComma s else s
  else s

/-- `attachment.mimeType || "image/png"`: the declared mime type when present
and non-empty (a JS-truthy string), else the default `"image/png"`. -/
def mimeOrDefault : Option Str → Str
  | some s => if s = [] then str "image/png" else s
  | none => str "image/png"

/-- `attachmentToAnthropicImage` (`base.ts` 222-244): `null` for non-image
attachments; otherwise an `image` block whose `data` is the payload with any
`data:`-URI head removed and whose `media_type` defaults to `"image/png"`. -/
def attachmentToAnthropicImage (a : MessageAttachment) : Option AnthropicContentBlock :=
  if a.type ≠ str "image" then none
  else some (.image (mimeOrDefault a.mimeType) (stripDataUri a.data))

/-- `attachmentToOpenAIImage` (`base.ts` 257-276): `null` for non-image
attachments; otherwise an `image_url` block whose `url` is the payload itself
when it already starts with `"data:"`, and
`"data:" + mimeType + ";base64," + data` otherwise; `detail` is `"auto"`. -/
def attachmentToOpenAIImage (a : MessageAttachment) : Option OpenAIContentBlock :=
  if a.type ≠ str "image" then none
  else
    let dataUri :=
      if (str "data:").isPrefixOf a.data then a.data
      else str "data:" ++ mimeOrDefault a.mimeType ++ str ";base64," ++ a.data
    some (.image_url dataUri (some (str "auto")))

/-! ## Message conversion (`base.ts` 281-340) -/

/-- `messageToAnthropicContent` (`base.ts` 281-308): plain string when the
message has no image attachments; otherwise the image blocks of all
attachments (in order) followed by a text block when the content is a
non-empty (JS-truthy) string. -/
def messageToAnthropicContent (m : Message) : AnthropicContent :=
  if ¬ hasImageAttachments m then .plain m.content
  else
    let imageBlocks :=
      match m.attachments with
      | some l => l.filterMap attachmentToAnthropicImage
      | none => []
    .blocks (imageBlocks ++ (if m.content = [] then [] else [.text m.content]))

/-- `messageToOpenAIContent` (`base.ts` 313-340): plain string when the
message has no image attachments; otherwise a text block (when the content is
non-empty) followed by the image blocks of all attachments in order. -/
def messageToOpenAIContent (m : Message) : OpenAIContent :=
  if ¬ hasImageAttachments m then .plain m.content
  else
    let imageBlocks :=
      match m.attachments with
      | some l => l.filterMap attachmentToOpenAIImage
      | none => []
    .blocks ((if m.content = [] then [] else [.text m.content]) ++ imageBlocks)

/-! ## Message-list formatting (`base.ts` 60-80, 345-397) -/

/-- One `{role, content}` entry of the flat `formatMessages` output. -/
structure ChatEntry where
  role : Str
  content : Str
  deriving Repr, DecidableEq

/-- `formatMessages` (`base.ts` 60-80): a leading `system` entry when the
system prompt is JS-truthy (present and non-empty), then one entry per
conversation message, in order. -/
def formatMessages (messages : List Message) (systemPrompt : Option Str) : List ChatEntry :=
  (match systemPrompt with
   | some sp => if sp = [] then [] else [⟨str "system", sp⟩]
   | none => []) ++
  messages.map (fun m => ⟨m.role, m.content⟩)

/-- One entry of the Anthropic message list. -/
structure AnthropicEntry where
  role : Str
  content : AnthropicContent
  deriving Repr, DecidableEq

/-- The `{system, messages}` record returned by `formatMessagesForAnthropic`. -/
structure AnthropicRequest where
  system : Str
  messages : List AnthropicEntry
  deriving Repr, DecidableEq

/-- `formatMessagesForAnthropic` (`base.ts` 345-370): the system prompt goes
into the top-level `system` field (`systemPrompt || ""`); system-role
messages are skipped (`continue`); every other message becomes an entry with
role `"assistant"` when its role is `"assistant"` and `"user"` otherwise. -/
def formatMessagesForAnthropic (messages : List Message) (systemPrompt : Option Str) :
    AnthropicRequest where
  system := systemPrompt.getD []
  messages := messages.filterMap (fun m =>
    if m.role = str "system" then none
    else some ⟨if m.role = str "assistant" then str "assistant" else str "user",
               messageToAnthropicContent m⟩)

/-- One entry of the OpenAI message list. -/
structure OpenAIEntry where
  role : Str
  content : OpenAIContent
  deriving Repr, DecidableEq

/-- `formatMessagesForOpenAI` (`base.ts` 375-397): a leading `system` entry
when the system prompt is JS-truthy, then one entry per message (role kept
verbatim, content via `messageToOpenAIContent`). -/
def formatMessagesForOpenAI (messages : List Message) (systemPrompt : Option Str) :
    List OpenAIEntry :=
  (match systemPrompt with
   | some sp => if sp = [] then [] else [⟨str "system", .plain sp⟩]
   | none => []) ++
  messages.map (fun m => ⟨m.role, messageToOpenAIContent m⟩)

/-! ## Tool schema conversion (`base.ts` 85-172)

`ActionParameter` (from `@yourgpt/core`):
`{type, description?, enum?, required?, items?, properties?}` — a recursive
JSON-schema-like shape.  `JsonSchema` is the shape produced by
`parameterToJsonSchema`: `{type, description?, enum?, items?, properties?}`. -/

/-- `ActionParameter`: one parameter of an action definition. -/
inductive ActionParameter where
  | mk (ty : Str) (dsc : Option Str) (enumVals : Option (List Str)) (req : Option Bool)
      (items : Option ActionParameter) (properties : Option (List (Str × ActionParameter)))
  deriving Repr

def ActionParameter.ty : ActionParameter → Str
  | .mk t _ _ _ _ _ => t

def ActionParameter.dsc : ActionParameter → Option Str
  | .mk _ d _ _ _ _ => d

def ActionParameter.enumVals : ActionParameter → Option (List Str)
  | .mk _ _ e _ _ _ => e

def ActionParameter.req : ActionParameter → Option Bool
  | .mk _ _ _ r _ _ => r

def ActionParameter.items : ActionParameter → Option ActionParameter
  | .mk _ _ _ _ i _ => i

def ActionParameter.properties : ActionParameter → Option (List (Str × ActionParameter))
  | .mk _ _ _ _ _ p => p

/-- The JSON-Schema record built by `parameterToJsonSchema`. -/
inductive JsonSchema where
  | mk (ty : Str) (dsc : Option Str) (enumVals : Option (List Str))
      (items : Option JsonSchema) (properties : Option (List (Str × JsonSchema)))
  deriving Repr

def JsonSchema.ty : JsonSchema → Str
  | .mk t _ _ _ _ => t

def JsonSchema.dsc : JsonSchema → Option Str
  | .mk _ d _ _ _ => d

def JsonSchema.enumVals : JsonSchema → Option (List Str)
  | .mk _ _ e _ _ => e

def JsonSchema.items : JsonSchema → Option JsonSchema
  | .mk _ _ _ i _ => i

def JsonSchema.properties : JsonSchema → Option (List (Str × JsonSchema))
  | .mk _ _ _ _ p => p

mutual
/-- `parameterToJsonSchema` (`base.ts` 85-136): copies `type`; copies
`description` when JS-truthy (present and non-empty); copies `enum` when
present (any array is truthy); recursively converts `items` when the type is
`"array"` and `items` is present; recursively converts each value of
`properties` (keys preserved) when the type is `"object"` and `properties`
is present. -/
def parameterToJsonSchema : ActionParameter → JsonSchema
  | .mk ty dsc en _req it props =>
    JsonSchema.mk ty
      (match dsc with
       | some d => if d = [] then none else some d
       | none => none)
      en
      (if ty = str "array" then
        match it with
        | some p => some (parameterToJsonSchema p)
        | none => none
       else none)
      (if ty = str "object" then
        match props with
        | some l => some (propsToJsonSchema l)
        | none => none
       else none)

/-- The `Object.entries(param.properties).map([key, prop] => [key,
parameterToJsonSchema(prop)])` part of `parameterToJsonSchema`. -/
def propsToJsonSchema : List (Str × ActionParameter) → List (Str × JsonSchema)
  | [] => []
  | (k, p) :: rest => (k, parameterToJsonSchema p) :: propsToJsonSchema rest
end

/-- `ActionDefinition`: `{name, description, parameters?}` where `parameters`
is a record of named `ActionParameter`s (modelled as an ordered association
list, matching `Object.entries` enumeration order). -/
structure ActionDefinition where
  name : Str
  description : Str
  parameters : Option (List (Str × ActionParameter))
  deriving Repr

/-- The `parameters` object of one formatted tool: always
`{type: "object", properties, required}`. -/
structure ToolParameters where
  ty : Str
  properties : List (Str × JsonSchema)
  required : List Str
  deriving Repr

/-- One element of the `formatTools` output:
`{type: "function", function: {name, description, parameters}}`. -/
structure FormattedTool where
  type : Str
  name : Str
  description : Str
  parameters : ToolParameters
  deriving Repr

/-- `formatTools` (`base.ts` 141-172): each action becomes a declared
function with name and description copied and a `parameters` object of type
`"object"` whose `properties` converts each declared parameter and whose
`required` lists the keys of parameters marked required; both are empty when
the action has no `parameters`. -/
def formatTools (actions : List ActionDefinition) : List FormattedTool :=
  actions.map (fun action =>
    { type := str "function"
      name := action.name
      description := action.description
      parameters :=
        { ty := str "object"
          properties :=
            match action.parameters with
            | some ps => propsToJsonSchema ps
            | none => []
          required :=
            match action.parameters with
            | some ps => (ps.filter (fun kp => kp.2.req = some true)).map Prod.fst
            | none => [] } })

/-! ## State-passing embedding of the formatting functions (frame property)

The JavaScript formatting functions receive their `Message` and
`MessageAttachment` arguments by reference and could in principle assign to
their fields.  To make the no-mutation claim statable, the four functions are
re-embedded below in state-passing style: each returns, next to its result,
the state of its input object after the call, built by walking the source
body statement by statement.  Every statement of the source only reads the
input (the one reassignment, to `base64Data`/`dataUri`, targets a local
variable), so the post-state is assembled from the fields the body read. -/

/-- State-passing `attachmentToAnthropicImage`: the body reads
`attachment.type`, `attachment.data`, `attachment.mimeType` and writes only
the local `base64Data`. -/
def attachmentToAnthropicImageSt (a : MessageAttachment) :
    Option AnthropicContentBlock × MessageAttachment :=
  if a.type ≠ str "image" then (none, a)
  else
    let base64Data := a.data
    let base64Data :=
      if (str "data:").isPrefixOf base64Data then
        if ',' ∈ base64Data then afterComma base64Data else base64Data
      else base64Data
    (some (.image (mimeOrDefault a.mimeType) base64Data),
     { type := a.type, data := a.data, mimeType := a.mimeType })

/-- State-passing `attachmentToOpenAIImage`: the body reads
`attachment.type`, `attachment.data`, `attachment.mimeType` and writes only
the local `dataUri`. -/
def attachmentToOpenAIImageSt (a : MessageAttachment) :
    Option OpenAIContentBlock × MessageAttachment :=
  if a.type ≠ str "image" then (none, a)
  else
    let dataUri := a.data
    let dataUri :=
      if ¬ (str "data:").isPrefixOf dataUri then
        str "data:" ++ mimeOrDefault a.mimeType ++ str ";base64," ++ a.data
      else dataUri
    (some (.image_url dataUri (some (str "auto"))),
     { type := a.type, data := a.data, mimeType := a.mimeType })

/-- The `for (const attachment of message.attachments)` loop, threading each
attachment through the state-passing converter and returning the attachment
list after the loop. -/
def anthropicBlocksLoopSt :
    List MessageAttachment → List AnthropicContentBlock × List MessageAttachment
  | [] => ([], [])
  | a :: rest =>
    let (b, a2) := attachmentToAnthropicImageSt a
    let (bs, rest2) := anthropicBlocksLoopSt rest
    ((match b with | some blk => blk :: bs | none => bs), a2 :: rest2)

/-- The corresponding loop for the OpenAI converter. -/
def openAIBlocksLoopSt :
    List MessageAttachment → List OpenAIContentBlock × List MessageAttachment
  | [] => ([], [])
  | a :: rest =>
    let (b, a2) := attachmentToOpenAIImageSt a
    let (bs, rest2) := openAIBlocksLoopSt rest
    ((match b with | some blk => blk :: bs | none => bs), a2 :: rest2)

/-- State-passing `messageToAnthropicContent`: reads `message.content` and
`message.attachments`, pushes onto the local `blocks` array, and assigns to
no field of `message`. -/
def messageToAnthropicContentSt (m : Message) : AnthropicContent × Message :=
  if ¬ hasImageAttachments m then (.plain m.content, m)
  else
    match m.attachments with
    | none =>
      (.blocks (if m.content = [] then [] else [.text m.content]),
       { role := m.role, content := m.content, attachments := none })
    | some l =>
      let (bs, l2) := anthropicBlocksLoopSt l
      (.blocks (bs ++ (if m.content = [] then [] else [.text m.content])),
       { role := m.role, content := m.content, attachments := some l2 })

/-- State-passing `messageToOpenAIContent`. -/
def messageToOpenAIContentSt (m : Message) : OpenAIContent × Message :=
  if ¬ hasImageAttachments m then (.plain m.content, m)
  else
    match m.attachments with
    | none =>
      (.blocks (if m.content = [] then [] else [.text m.content]),
       { role := m.role, content := m.content, attachments := none })
    | some l =>
      let (bs, l2) := openAIBlocksLoopSt l
      (.blocks ((if m.content = [] then [] else [.text m.content]) ++ bs),
       { role := m.role, content := m.content, attachments := some l2 })

/-! ## Provider-side re-parsing (spec-side definitions for the round-trip
claim)

These definitions follow the spec's words, not the source: they are each
provider's own message-construction rules, used to read a formatted content
value back.  The text is the first text block's text (empty when there is
none); the image reference is the first image block, with the data URI undone
for the OpenAI form (`media type` between `data:` and the first `;`, payload
after the first comma). -/

/-- First text block's text, or `[]` when there is none. -/
def firstAnthropicText : List AnthropicContentBlock → Str
  | [] => []
  | .text t :: _ => t
  | .image _ _ :: rest => firstAnthropicText rest

/-- First image block's `(media_type, data)`, when present. -/
def firstAnthropicImage : List AnthropicContentBlock → Option (Str × Str)
  | [] => none
  | .image mt d :: _ => some (mt, d)
  | .text _ :: rest => firstAnthropicImage rest

/-- Read Anthropic content back: `(text, media type, base64 payload)`. -/
def parseAnthropicContent (c : AnthropicContent) : Option (Str × Str × Str) :=
  match c with
  | .plain _ => none
  | .blocks bs =>
    match firstAnthropicImage bs with
    | some (mt, d) => some (firstAnthropicText bs, mt, d)
    | none => none

/-- First text block's text, or `[]` when there is none. -/
def firstOpenAIText : List OpenAIContentBlock → Str
  | [] => []
  | .text t :: _ => t
  | .image_url _ _ :: rest => firstOpenAIText rest

/-- First image block's `url`, when present. -/
def firstOpenAIImageUrl : List OpenAIContentBlock → Option Str
  | [] => none
  | .image_url u _ :: _ => some u
  | .text _ :: rest => firstOpenAIImageUrl rest

/-- Undo a `data:<media type>;base64,<payload>` URI: the media type is what
stands between `data:` and the first `;`, the payload is what follows the
first comma. -/
def undoDataUri (url : Str) : Str × Str :=
  if (str "data:").isPrefixOf url then
    ((url.drop 5).takeWhile (fun c => c ≠ ';'), afterComma url)
  else ([], url)

/-- Read OpenAI content back: `(text, media type, base64 payload)`. -/
def parseOpenAIContent (c : OpenAIContent) : Option (Str × Str × Str) :=
  match c with
  | .plain _ => none
  | .blocks bs =>
    match firstOpenAIImageUrl bs with
    | some u => some (firstOpenAIText bs, (undoDataUri u).1, (undoDataUri u).2)
    | none => none

/-! ## Helper lemmas -/

theorem isPrefixOf_append_self (l r : Str) : l.isPrefixOf (l ++ r) = true := by
  rw [List.isPrefixOf_iff_prefix]
  exact List.prefix_append l r

theorem afterComma_cons_comma (r : Str) : afterComma (',' :: r) = r := by
  simp [afterComma]

theorem afterComma_append_left (l r : Str) (h : ',' ∉ l) :
    afterComma (l ++ r) = afterComma r := by
  induction l with
  | nil => rfl
  | cons c cs ih =>
    have hc : ¬ c = ',' := fun hc => h (hc ▸ List.mem_cons_self c cs)
    have hcs : ',' ∉ cs := fun hm => h (List.mem_cons_of_mem c hm)
    simp only [List.cons_append, afterComma, if_neg hc]
    exact ih hcs

theorem takeWhile_append_cons {p : Char → Bool} (l : Str) (c : Char) (r : Str)
    (hall : ∀ x ∈ l, p x = true) (hc : p c = false) :
    (l ++ c :: r).takeWhile p = l := by
  induction l with
  | nil => simp [List.takeWhile, hc]
  | cons x xs ih =>
    have hx : p x = true := hall x (List.mem_cons_self x xs)
    have hxs : ∀ y ∈ xs, p y = true := fun y hy => hall y (List.mem_cons_of_mem x hy)
    simp [List.takeWhile, hx, ih hxs]

theorem hasImageAttachments_false_of_empty (m : Message)
    (h : m.attachments.getD [] = []) : hasImageAttachments m = false := by
  unfold hasImageAttachments
  cases hA : m.attachments with
  | none => rfl
  | some l =>
    rw [hA, Option.getD_some] at h
    simp [h]

/-! ## Claim theorems -/

/-- C2: for every message, `messageToAnthropicContent` and
`messageToOpenAIContent` return a multi-block content array only when the
message has at least one attachment, and return the content unchanged as a
plain string whenever the message has no attachments. -/
theorem plain_content_iff_attachments (m : Message) :
    (m.attachments.getD [] = [] →
      messageToAnthropicContent m = .plain m.content ∧
      messageToOpenAIContent m = .plain m.content) ∧
    (∀ bs, messageToAnthropicContent m = .blocks bs → m.attachments.getD [] ≠ []) ∧
    (∀ bs, messageToOpenAIContent m = .blocks bs → m.attachments.getD [] ≠ []) := by
  refine ⟨?_, ?_, ?_⟩
  · intro h
    have hf := hasImageAttachments_false_of_empty m h
    constructor <;> simp [messageToAnthropicContent, messageToOpenAIContent, hf]
  · intro bs hbs h
    have hf := hasImageAttachments_false_of_empty m h
    simp [messageToAnthropicContent, hf] at hbs
  · intro bs hbs h
    have hf := hasImageAttachments_false_of_empty m h
    simp [messageToOpenAIContent, hf] at hbs

/-- Witness for C2: a message without attachments stays a plain string, and a
message that was rendered as blocks indeed had an attachment. -/
theorem plain_content_iff_attachments_witness :
    (messageToAnthropicContent ⟨str "user", str "hi", none⟩ = .plain (str "hi") ∧
     messageToOpenAIContent ⟨str "user", str "hi", none⟩ = .plain (str "hi")) ∧
    (Message.mk (str "user") (str "hi")
        (some [⟨str "image", str "QUJD", some (str "image/png")⟩])).attachments.getD [] ≠ [] :=
  ⟨(plain_content_iff_attachments ⟨str "user", str "hi", none⟩).1 rfl,
   (plain_content_iff_attachments
      ⟨str "user", str "hi", some [⟨str "image", str "QUJD", some (str "image/png")⟩]⟩).2.1
     [.image (str "image/png") (str "QUJD"), .text (str "hi")] (by decide)⟩

/-- C3: for every image attachment, the Anthropic adapter strips a leading
`data:`-URI head from the payload (keeping what follows the first comma),
while the OpenAI adapter keeps an existing `data:` payload verbatim and
otherwise prepends `data:<mime>;base64,`. -/
theorem attachment_dataUri_handling (a : MessageAttachment) (h : a.type = str "image") :
    (∀ pre rest, ',' ∉ pre →
        a.data = str "data:" ++ pre ++ ',' :: rest →
        attachmentToAnthropicImage a = some (.image (mimeOrDefault a.mimeType) rest)) ∧
    ((str "data:").isPrefixOf a.data = false →
        attachmentToAnthropicImage a = some (.image (mimeOrDefault a.mimeType) a.data)) ∧
    ((str "data:").isPrefixOf a.data = true →
        attachmentToOpenAIImage a = some (.image_url a.data (some (str "auto")))) ∧
    ((str "data:").isPrefixOf a.data = false →
        attachmentToOpenAIImage a = some (.image_url
          (str "data:" ++ mimeOrDefault a.mimeType ++ str ";base64," ++ a.data)
          (some (str "auto")))) := by
  refine ⟨?_, ?_, ?_, ?_⟩
  · intro pre rest hpre hdata
    have hstrip : stripDataUri a.data = rest := by
      rw [hdata, List.append_assoc]
      have hpref : (str "data:").isPrefixOf (str "data:" ++ (pre ++ ',' :: rest)) = true :=
        isPrefixOf_append_self _ _
      have hmem : ',' ∈ str "data:" ++ (pre ++ ',' :: rest) := by simp
      have hnc : ',' ∉ str "data:" := by decide
      rw [stripDataUri, if_pos hpref, if_pos hmem, afterComma_append_left _ _ hnc,
        afterComma_append_left _ _ hpre, afterComma_cons_comma]
    simp [attachmentToAnthropicImage, h, hstrip]
  · intro hf
    have hstrip : stripDataUri a.data = a.data := by
      rw [stripDataUri, hf]; simp
    simp [attachmentToAnthropicImage, h, hstrip]
  · intro ht
    simp [attachmentToOpenAIImage, h, ht]
  · intro hf
    simp [attachmentToOpenAIImage, h, hf]

/-- Witness for C3: the stripping at a payload that carries a `data:` head,
and the verbatim / re-prefixed OpenAI URLs. -/
theorem attachment_dataUri_handling_witness :
    attachmentToAnthropicImage
        ⟨str "image", str "data:image/png;base64,QUJD", some (str "image/png")⟩ =
      some (.image (mimeOrDefault (some (str "image/png"))) (str "QUJD")) ∧
    attachmentToOpenAIImage
        ⟨str "image", str "data:image/png;base64,QUJD", some (str "image/png")⟩ =
      some (.image_url (str "data:image/png;base64,QUJD") (some (str "auto"))) ∧
    attachmentToOpenAIImage ⟨str "image", str "QUJD", some (str "image/jpeg")⟩ =
      some (.image_url
        (str "data:" ++ mimeOrDefault (some (str "image/jpeg")) ++ str ";base64," ++ str "QUJD")
        (some (str "auto"))) :=
  ⟨(attachment_dataUri_handling
      ⟨str "image", str "data:image/png;base64,QUJD", some (str "image/png")⟩ rfl).1
      (str "image/png;base64") (str "QUJD") (by decide) (by decide),
   (attachment_dataUri_handling
      ⟨str "image", str "data:image/png;base64,QUJD", some (str "image/png")⟩ rfl).2.2.1
      (by decide),
   (attachment_dataUri_handling
      ⟨str "image", str "QUJD", some (str "image/jpeg")⟩ rfl).2.2.2 (by decide)⟩

/-- C4: an action definition with no parameters is formatted with a present
`parameters` object whose `properties` and `required` are empty. -/
theorem formatTools_empty_params (a : ActionDefinition)
    (h : a.parameters = none ∨ a.parameters = some []) :
    formatTools [a] =
      [{ type := str "function", name := a.name, description := a.description,
         parameters := { ty := str "object", properties := [], required := [] } }] := by
  rcases h with h | h <;> simp [formatTools, h, propsToJsonSchema]

/-- Witness for C4: a concrete parameterless action. -/
theorem formatTools_empty_params_witness :
    formatTools [⟨str "ping", str "Ping the server", none⟩] =
      [{ type := str "function", name := str "ping", description := str "Ping the server",
         parameters := { ty := str "object", properties := [], required := [] } }] :=
  formatTools_empty_params ⟨str "ping", str "Ping the server", none⟩ (Or.inl rfl)

/-- C10: an image attachment with an absent or empty `mimeType` gets the
default media type `image/png`: in the Anthropic `media_type` field, and in
the OpenAI data URI when one is built. -/
theorem default_media_type (a : MessageAttachment) (h : a.type = str "image")
    (hm : a.mimeType = none ∨ a.mimeType = some []) :
    attachmentToAnthropicImage a = some (.image (str "image/png") (stripDataUri a.data)) ∧
    ((str "data:").isPrefixOf a.data = false →
      attachmentToOpenAIImage a =
        some (.image_url (str "data:image/png;base64," ++ a.data) (some (str "auto")))) := by
  have hmime : mimeOrDefault a.mimeType = str "image/png" := by
    rcases hm with hm | hm <;> simp [mimeOrDefault, hm]
  constructor
  · simp [attachmentToAnthropicImage, h, hmime]
  · intro hf
    have hurl : str "data:" ++ mimeOrDefault a.mimeType ++ str ";base64," ++ a.data =
        str "data:image/png;base64," ++ a.data := by rw [hmime]; rfl
    simp [attachmentToOpenAIImage, h, hf, ← hurl]

/-- Witness for C10: an image attachment with no `mimeType`. -/
theorem default_media_type_witness :
    attachmentToAnthropicImage ⟨str "image", str "QUJD", none⟩ =
      some (.image (str "image/png") (stripDataUri (str "QUJD"))) ∧
    attachmentToOpenAIImage ⟨str "image", str "QUJD", none⟩ =
      some (.image_url (str "data:image/png;base64," ++ str "QUJD") (some (str "auto"))) :=
  ⟨(default_media_type ⟨str "image", str "QUJD", none⟩ rfl (Or.inl rfl)).1,
   (default_media_type ⟨str "image", str "QUJD", none⟩ rfl (Or.inl rfl)).2 (by decide)⟩

/-- C5: with a non-empty system prompt, the flat formatters put a leading
`system` entry before the conversation messages (kept in order), while the
Anthropic formatter returns the prompt in the top-level `system` field and
keeps only the non-system messages. -/
theorem system_prompt_placement (msgs : List Message) (sp : Str) (hne : sp ≠ []) :
    formatMessages msgs (some sp) =
      ⟨str "system", sp⟩ :: msgs.map (fun m => ⟨m.role, m.content⟩) ∧
    formatMessagesForOpenAI msgs (some sp) =
      ⟨str "system", .plain sp⟩ :: msgs.map (fun m => ⟨m.role, messageToOpenAIContent m⟩) ∧
    (formatMessagesForAnthropic msgs (some sp)).system = sp ∧
    (formatMessagesForAnthropic msgs (some sp)).messages =
      (msgs.filter (fun m => m.role ≠ str "system")).map
        (fun m => ⟨if m.role = str "assistant" then str "assistant" else str "user",
                   messageToAnthropicContent m⟩) := by
  refine ⟨by simp [formatMessages, hne], by simp [formatMessagesForOpenAI, hne], rfl, ?_⟩
  show List.filterMap _ msgs = _
  induction msgs with
  | nil => rfl
  | cons m rest ih =>
    by_cases h : m.role = str "system" <;>
      simp [List.filterMap_cons, List.filter_cons, h, ih]

/-- Witness for C5: one system-role and one user-role message with the
prompt `"be brief"`. -/
theorem system_prompt_placement_witness :
    formatMessages [⟨str "system", str "old", none⟩, ⟨str "user", str "hi", none⟩]
        (some (str "be brief")) =
      ⟨str "system", str "be brief"⟩ ::
        [⟨str "system", str "old", none⟩, (⟨str "user", str "hi", none⟩ : Message)].map
          (fun m => ⟨m.role, m.content⟩) ∧
    formatMessagesForOpenAI [⟨str "system", str "old", none⟩, ⟨str "user", str "hi", none⟩]
        (some (str "be brief")) =
      ⟨str "system", .plain (str "be brief")⟩ ::
        [⟨str "system", str "old", none⟩, (⟨str "user", str "hi", none⟩ : Message)].map
          (fun m => ⟨m.role, messageToOpenAIContent m⟩) ∧
    (formatMessagesForAnthropic [⟨str "system", str "old", none⟩, ⟨str "user", str "hi", none⟩]
        (some (str "be brief"))).system = str "be brief" ∧
    (formatMessagesForAnthropic [⟨str "system", str "old", none⟩, ⟨str "user", str "hi", none⟩]
        (some (str "be brief"))).messages =
      ([⟨str "system", str "old", none⟩, (⟨str "user", str "hi", none⟩ : Message)].filter
          (fun m => m.role ≠ str "system")).map
        (fun m => ⟨if m.role = str "assistant" then str "assistant" else str "user",
                   messageToAnthropicContent m⟩) :=
  system_prompt_placement
    [⟨str "system", str "old", none⟩, ⟨str "user", str "hi", none⟩] (str "be brief") (by decide)

/-- C6: a message with image attachments and non-empty text is rendered with
every image block before the text block by the Anthropic formatter, and with
the text block before every image block by the OpenAI formatter. -/
theorem image_text_block_order (m : Message) (himg : hasImageAttachments m = true)
    (hc : m.content ≠ []) :
    (∃ imgs, (∀ b ∈ imgs, ∃ mt d, b = AnthropicContentBlock.image mt d) ∧
        messageToAnthropicContent m = .blocks (imgs ++ [.text m.content])) ∧
    (∃ imgs, (∀ b ∈ imgs, ∃ u dt, b = OpenAIContentBlock.image_url u dt) ∧
        messageToOpenAIContent m = .blocks (.text m.content :: imgs)) := by
  obtain ⟨l, hA⟩ : ∃ l, m.attachments = some l := by
    cases hA : m.attachments with
    | none => rw [hasImageAttachments, hA] at himg; cases himg
    | some l => exact ⟨l, rfl⟩
  constructor
  · refine ⟨l.filterMap attachmentToAnthropicImage, ?_, ?_⟩
    · intro b hb
      rw [List.mem_filterMap] at hb
      obtain ⟨a, _, ha⟩ := hb
      simp only [attachmentToAnthropicImage] at ha
      split at ha
      · simp at ha
      · exact ⟨_, _, (Option.some_inj.mp ha).symm⟩
    · simp [messageToAnthropicContent, himg, hA, hc]
  · refine ⟨l.filterMap attachmentToOpenAIImage, ?_, ?_⟩
    · intro b hb
      rw [List.mem_filterMap] at hb
      obtain ⟨a, _, ha⟩ := hb
      simp only [attachmentToOpenAIImage] at ha
      split at ha
      · simp at ha
      · exact ⟨_, _, (Option.some_inj.mp ha).symm⟩
    · simp [messageToOpenAIContent, himg, hA, hc]

/-- Witness for C6: a message with one image attachment and the text
`"hi"`. -/
theorem image_text_block_order_witness :
    (∃ imgs, (∀ b ∈ imgs, ∃ mt d, b = AnthropicContentBlock.image mt d) ∧
        messageToAnthropicContent
            ⟨str "user", str "hi", some [⟨str "image", str "QUJD", some (str "image/png")⟩]⟩ =
          .blocks (imgs ++ [.text (str "hi")])) ∧
    (∃ imgs, (∀ b ∈ imgs, ∃ u dt, b = OpenAIContentBlock.image_url u dt) ∧
        messageToOpenAIContent
            ⟨str "user", str "hi", some [⟨str "image", str "QUJD", some (str "image/png")⟩]⟩ =
          .blocks (.text (str "hi") :: imgs)) :=
  image_text_block_order
    ⟨str "user", str "hi", some [⟨str "image", str "QUJD", some (str "image/png")⟩]⟩
    (by decide) (by decide)

/-- C9: every entry returned by `formatMessagesForAnthropic` has role
`"assistant"` or `"user"`; system-role messages are dropped, assistant-role
messages keep their role, and every other role becomes `"user"`. -/
theorem anthropic_roles_user_or_assistant (msgs : List Message) (sp : Option Str) :
    (∀ e ∈ (formatMessagesForAnthropic msgs sp).messages,
        e.role = str "assistant" ∨ e.role = str "user") ∧
    (formatMessagesForAnthropic msgs sp).messages.map AnthropicEntry.role =
      msgs.filterMap (fun m =>
        if m.role = str "system" then none
        else some (if m.role = str "assistant" then str "assistant" else str "user")) := by
  constructor
  · intro e he
    simp only [formatMessagesForAnthropic, List.mem_filterMap] at he
    obtain ⟨m, _, hme⟩ := he
    by_cases h : m.role = str "system"
    · simp [h] at hme
    · rw [if_neg h] at hme
      rw [← Option.some_inj.mp hme]
      by_cases ha : m.role = str "assistant"
      · exact Or.inl (by simp [ha])
      · exact Or.inr (by simp [ha])
  · show (List.filterMap _ msgs).map _ = _
    induction msgs with
    | nil => rfl
    | cons m rest ih =>
      by_cases h : m.role = str "system" <;> simp [List.filterMap_cons, h, ih]

/-- Witness for C9: a tool-role message is rewritten to a user-role entry. -/
theorem anthropic_roles_user_or_assistant_witness :
    (⟨str "user", .plain (str "r")⟩ : AnthropicEntry).role = str "assistant" ∨
    (⟨str "user", .plain (str "r")⟩ : AnthropicEntry).role = str "user" :=
  (anthropic_roles_user_or_assistant [⟨str "tool", str "r", none⟩] none).1
    ⟨str "user", .plain (str "r")⟩ (by decide)

theorem propsToJsonSchema_eq_map (l : List (Str × ActionParameter)) :
    propsToJsonSchema l = l.map (fun kp => (kp.1, parameterToJsonSchema kp.2)) := by
  induction l with
  | nil => rfl
  | cons kp rest ih =>
    cases kp
    simp [propsToJsonSchema, ih]

/-- C7 counterexample: a parameter whose `description` is present but empty
(`""`) loses its description — `parameterToJsonSchema` copies `description`
only when it is JS-truthy, so "copied when present" fails at this input. -/
theorem schema_description_counterexample :
    (ActionParameter.mk (str "string") (some []) none none none none).dsc = some [] ∧
    (parameterToJsonSchema
        (ActionParameter.mk (str "string") (some []) none none none none)).dsc ≠ some [] :=
  ⟨rfl, by decide⟩

/-- C7 (amended): `parameterToJsonSchema` copies `type`; copies `description`
when present *and non-empty*; copies `enum` when present; an array
parameter's `items` schema is the recursive conversion of its `items`; an
object parameter's `properties` map is the key-preserving recursive
conversion of its `properties`. -/
theorem parameterToJsonSchema_mk (ty : Str) (dsc : Option Str) (en : Option (List Str))
    (req : Option Bool) (it : Option ActionParameter)
    (props : Option (List (Str × ActionParameter))) :
    parameterToJsonSchema (.mk ty dsc en req it props) =
      JsonSchema.mk ty
        (match dsc with
         | some d => if d = [] then none else some d
         | none => none)
        en
        (if ty = str "array" then
          match it with
          | some p => some (parameterToJsonSchema p)
          | none => none
         else none)
        (if ty = str "object" then
          match props with
          | some l => some (propsToJsonSchema l)
          | none => none
         else none) := by
  rw [parameterToJsonSchema.eq_def]

theorem parameterToJsonSchema_amended (p : ActionParameter) :
    (parameterToJsonSchema p).ty = p.ty ∧
    (parameterToJsonSchema p).dsc = p.dsc.bind (fun d => if d = [] then none else some d) ∧
    (parameterToJsonSchema p).enumVals = p.enumVals ∧
    (parameterToJsonSchema p).items =
      (if p.ty = str "array" then p.items.map parameterToJsonSchema else none) ∧
    (parameterToJsonSchema p).properties =
      (if p.ty = str "object" then
        p.properties.map (fun l => l.map (fun kp => (kp.1, parameterToJsonSchema kp.2)))
       else none) := by
  obtain ⟨ty, dsc, en, req, it, props⟩ := p
  rw [parameterToJsonSchema_mk]
  refine ⟨rfl, ?_, rfl, ?_, ?_⟩
  · cases dsc <;> rfl
  · by_cases h : ty = str "array" <;> cases it <;>
      simp [h, ActionParameter.ty, ActionParameter.items, JsonSchema.items]
  · by_cases h : ty = str "object" <;> cases props <;>
      simp [h, ActionParameter.ty, ActionParameter.properties, JsonSchema.properties,
        propsToJsonSchema_eq_map]

theorem attachmentToAnthropicImageSt_spec (a : MessageAttachment) :
    attachmentToAnthropicImageSt a = (attachmentToAnthropicImage a, a) := by
  obtain ⟨t, d, mt⟩ := a
  by_cases h : t = str "image" <;>
    simp [attachmentToAnthropicImageSt, attachmentToAnthropicImage, stripDataUri, h]

theorem attachmentToOpenAIImageSt_spec (a : MessageAttachment) :
    attachmentToOpenAIImageSt a = (attachmentToOpenAIImage a, a) := by
  obtain ⟨t, d, mt⟩ := a
  by_cases h : t = str "image" <;>
    by_cases hp : (str "data:").isPrefixOf d <;>
      simp [attachmentToOpenAIImageSt, attachmentToOpenAIImage, h, hp]

theorem anthropicBlocksLoopSt_spec (l : List MessageAttachment) :
    anthropicBlocksLoopSt l = (l.filterMap attachmentToAnthropicImage, l) := by
  induction l with
  | nil => rfl
  | cons a rest ih =>
    cases hb : attachmentToAnthropicImage a <;>
      simp [anthropicBlocksLoopSt, attachmentToAnthropicImageSt_spec, ih,
        List.filterMap_cons, hb]

theorem openAIBlocksLoopSt_spec (l : List MessageAttachment) :
    openAIBlocksLoopSt l = (l.filterMap attachmentToOpenAIImage, l) := by
  induction l with
  | nil => rfl
  | cons a rest ih =>
    cases hb : attachmentToOpenAIImage a <;>
      simp [openAIBlocksLoopSt, attachmentToOpenAIImageSt_spec, ih,
        List.filterMap_cons, hb]

theorem messageToAnthropicContentSt_spec (m : Message) :
    messageToAnthropicContentSt m = (messageToAnthropicContent m, m) := by
  obtain ⟨r, c, att⟩ := m
  by_cases himg : hasImageAttachments ⟨r, c, att⟩ = true
  · cases att with
    | none => simp [hasImageAttachments] at himg
    | some l =>
      simp [messageToAnthropicContentSt, messageToAnthropicContent, himg,
        anthropicBlocksLoopSt_spec]
  · simp [messageToAnthropicContentSt, messageToAnthropicContent, himg]

theorem messageToOpenAIContentSt_spec (m : Message) :
    messageToOpenAIContentSt m = (messageToOpenAIContent m, m) := by
  obtain ⟨r, c, att⟩ := m
  by_cases himg : hasImageAttachments ⟨r, c, att⟩ = true
  · cases att with
    | none => simp [hasImageAttachments] at himg
    | some l =>
      simp [messageToOpenAIContentSt, messageToOpenAIContent, himg,
        openAIBlocksLoopSt_spec]
  · simp [messageToOpenAIContentSt, messageToOpenAIContent, himg]

/-- C8: the state-passing embeddings of the four formatting functions return
their input message/attachment unchanged (and compute the same result as the
pure embeddings): the source bodies only read their inputs, so formatting
never mutates an attachment's `data`, `mimeType` or `type`, nor a message's
`content` or attachment list. -/
theorem formatting_no_mutation :
    (∀ a, attachmentToAnthropicImageSt a = (attachmentToAnthropicImage a, a)) ∧
    (∀ a, attachmentToOpenAIImageSt a = (attachmentToOpenAIImage a, a)) ∧
    (∀ m, messageToAnthropicContentSt m = (messageToAnthropicContent m, m)) ∧
    (∀ m, messageToOpenAIContentSt m = (messageToOpenAIContent m, m)) :=
  ⟨attachmentToAnthropicImageSt_spec, attachmentToOpenAIImageSt_spec,
   messageToAnthropicContentSt_spec, messageToOpenAIContentSt_spec⟩

theorem undoDataUri_build (mt d : Str) (hsemi : ';' ∉ mt) (hcomma : ',' ∉ mt) :
    undoDataUri (str "data:" ++ mt ++ str ";base64," ++ d) = (mt, d) := by
  have assoc : str "data:" ++ mt ++ str ";base64," ++ d =
      str "data:" ++ (mt ++ (str ";base64," ++ d)) := by simp [List.append_assoc]
  rw [assoc, undoDataUri,
    if_pos (isPrefixOf_append_self (str "data:") (mt ++ (str ";base64," ++ d)))]
  have hmedia : ((str "data:" ++ (mt ++ (str ";base64," ++ d))).drop 5).takeWhile
      (fun c => c ≠ ';') = mt := by
    rw [show (5 : Nat) = (str "data:").length from rfl, List.drop_left]
    rw [show str ";base64," ++ d = ';' :: (str "base64," ++ d) from rfl]
    refine takeWhile_append_cons mt ';' (str "base64," ++ d) ?_ (by decide)
    intro x hx
    simp only [decide_eq_true_eq]
    exact fun h => hsemi (h ▸ hx)
  have hpayload : afterComma (str "data:" ++ (mt ++ (str ";base64," ++ d))) = d := by
    rw [afterComma_append_left _ _ (by decide), afterComma_append_left _ _ hcomma,
      show str ";base64," ++ d = str ";base64" ++ (',' :: d) from rfl,
      afterComma_append_left _ _ (by decide), afterComma_cons_comma]
  rw [hmedia, hpayload]

/-- C1 counterexample: when the attachment's payload already carries a
`data:` URI whose embedded media type differs from the attachment's
`mimeType` field, the OpenAI adapter passes the payload verbatim, and
re-parsing recovers the media type embedded in the URI (`image/jpeg`), not
the attachment's own media type (`image/png`) — so the round-trip does not
reconstruct an image reference with the same media type. -/
theorem image_roundtrip_counterexample :
    parseOpenAIContent (messageToOpenAIContent
        ⟨str "user", str "hi",
         some [⟨str "image", str "data:image/jpeg;base64,AAA", some (str "image/png")⟩]⟩) =
      some (str "hi", str "image/jpeg", str "AAA") ∧
    parseOpenAIContent (messageToOpenAIContent
        ⟨str "user", str "hi",
         some [⟨str "image", str "data:image/jpeg;base64,AAA", some (str "image/png")⟩]⟩) ≠
      some (str "hi", str "image/png", str "AAA") := by
  constructor
  · decide
  · decide

/-- C1 (amended): for a message with exactly one image attachment whose
payload does not already start with `data:` and whose `mimeType` is present,
non-empty and free of `;` and `,`, formatting through either provider adapter
and re-parsing with that provider's message-construction rules reconstructs
the original message text, the attachment's base64 payload and its media
type.  (Without these conditions the OpenAI side can return the media type
embedded in a pre-existing data URI instead of the attachment's `mimeType`,
as the counterexample shows.) -/
theorem image_roundtrip_amended (m : Message) (a : MessageAttachment) (mt : Str)
    (hatt : m.attachments = some [a]) (hty : a.type = str "image")
    (hnp : (str "data:").isPrefixOf a.data = false)
    (hmt : a.mimeType = some mt) (hne : mt ≠ [])
    (hsemi : ';' ∉ mt) (hcomma : ',' ∉ mt) :
    parseAnthropicContent (messageToAnthropicContent m) = some (m.content, mt, a.data) ∧
    parseOpenAIContent (messageToOpenAIContent m) = some (m.content, mt, a.data) := by
  have himg : hasImageAttachments m = true := by
    simp [hasImageAttachments, hatt, hty]
  have hmime : mimeOrDefault a.mimeType = mt := by
    simp [mimeOrDefault, hmt, hne]
  have hstrip : stripDataUri a.data = a.data := by
    simp [stripDataUri, hnp]
  constructor
  · have hAc : messageToAnthropicContent m =
        .blocks ([.image mt a.data] ++ (if m.content = [] then [] else [.text m.content])) := by
      simp [messageToAnthropicContent, himg, hatt, attachmentToAnthropicImage, hty,
        hmime, hstrip]
    by_cases hcnt : m.content = [] <;>
      simp [hAc, hcnt, parseAnthropicContent, firstAnthropicImage, firstAnthropicText]
  · have hOc : messageToOpenAIContent m =
        .blocks ((if m.content = [] then [] else [.text m.content]) ++
          [.image_url (str "data:" ++ mt ++ str ";base64," ++ a.data) (some (str "auto"))]) := by
      simp [messageToOpenAIContent, himg, hatt, attachmentToOpenAIImage, hty, hnp, hmime]
    have hu : undoDataUri (str "data:" ++ (mt ++ (str ";base64," ++ a.data))) =
        (mt, a.data) := by
      simpa [List.append_assoc] using undoDataUri_build mt a.data hsemi hcomma
    by_cases hcnt : m.content = [] <;>
      simp [hOc, hcnt, parseOpenAIContent, firstOpenAIImageUrl, firstOpenAIText, hu]

/-- Witness for the amended C1: a message with text `"hi"` and one png image
attachment with payload `"QUJD"` round-trips through both adapters. -/
theorem image_roundtrip_amended_witness :
    parseAnthropicContent (messageToAnthropicContent
        ⟨str "user", str "hi", some [⟨str "image", str "QUJD", some (str "image/png")⟩]⟩) =
      some (str "hi", str "image/png", str "QUJD") ∧
    parseOpenAIContent (messageToOpenAIContent
        ⟨str "user", str "hi", some [⟨str "image", str "QUJD", some (str "image/png")⟩]⟩) =
      some (str "hi", str "image/png", str "QUJD") :=
  image_roundtrip_amended
    ⟨str "user", str "hi", some [⟨str "image", str "QUJD", some (str "image/png")⟩]⟩
    ⟨str "image", str "QUJD", some (str "image/png")⟩ (str "image/png")
    rfl rfl (by decide) rfl (by decide) (by decide) (by decide)

end CopilotSDK
